import Mathlib

/-!
Verification of the nand2tetris toolchain (Rust sources) against its
natural-language specification.

The development shallowly embeds the relevant parts of the three Rust
programs:

* `projects/06/hackasm/src/main.rs`   (Hack assembler)          — namespace `Hackasm`
* `projects/hacktrans/src/{main,command}.rs` (VM translator)    — namespace `Hacktrans`
* `projects/jack_compiler/src/{tokenizer,parser}.rs` (compiler) — namespace `Jack`

Rust `Result::Ok` is modelled by `CResult.ok`, `Result::Err` by
`CResult.err`, and an abort through `panic!` / `unwrap` / out-of-bounds
indexing by `CResult.panicked`.  Machine integers (`u16`, `u32`, `usize`)
are modelled by `Nat`; the places where the Rust code can overflow or
reject a parse are made explicit with bounds (`parse_unsigned`).  Rust
`String` output that the sources build line by line (each `push_str`
appending one newline-terminated line) is modelled as the `List String`
of those lines, except where a single flat `String` is what the source
returns (the assembler binary text and the VM translator templates).
-/

/-- Result of running a piece of Rust code: a normal return value,
an `Err` return value, or a `panic!`-style abort (`unwrap` on `None`,
out-of-bounds indexing, explicit `panic!`). -/
inductive CResult (α : Type) where
  | ok (a : α)
  | err (e : String)
  | panicked (msg : String)
deriving DecidableEq

/-- Monadic bind for `CResult`: propagate errors and aborts. -/
def CResult.bind {α β : Type} : CResult α → (α → CResult β) → CResult β
  | .ok a, f => f a
  | .err e, _ => .err e
  | .panicked m, _ => .panicked m

instance : Monad CResult where
  pure := CResult.ok
  bind := CResult.bind

@[simp]
theorem CResult.bind_ok {α β : Type} (a : α) (f : α → CResult β) :
    CResult.bind (.ok a) f = f a := rfl

@[simp]
theorem CResult.bind_err {α β : Type} (e : String) (f : α → CResult β) :
    CResult.bind (.err e) f = .err e := rfl

@[simp]
theorem CResult.bind_panicked {α β : Type} (m : String) (f : α → CResult β) :
    CResult.bind (.panicked m) f = .panicked m := rfl

/-- Decimal value of a list of digit characters (most significant first). -/
def digits_value (l : List Char) : Nat :=
  l.foldl (fun a c => 10 * a + (c.toNat - 48)) 0

/-- Model of Rust `str::parse::<uN>()` for an unsigned integer type whose
largest value is `bound`: an optional leading `+`, then one or more ASCII
digits, value at most `bound`; anything else is a parse error (`none`). -/
def parse_unsigned (bound : Nat) (s : String) : Option Nat :=
  match s.data with
  | [] => none
  | c :: cs =>
    let ds := if c = '+' then cs else c :: cs
    if ds ≠ [] ∧ ds.all Char.isDigit ∧ digits_value ds ≤ bound then
      some (digits_value ds)
    else none

/-- Index of the first occurrence of `pat` in `l`, if any. -/
def find_from (pat : List Char) : List Char → Option Nat
  | [] => if pat = [] then some 0 else none
  | c :: rest =>
    if pat.isPrefixOf (c :: rest) then some 0
    else (find_from pat rest).map (· + 1)

/-- Characters split at every occurrence of `sep` (empty pieces kept),
as Rust `str::split(char)` does. -/
def split_char_list (sep : Char) : List Char → List (List Char)
  | [] => [[]]
  | c :: rest =>
    let r := split_char_list sep rest
    if c = sep then [] :: r
    else
      match r with
      | h :: t => (c :: h) :: t
      | [] => [[c]]

/-- Model of Rust `str::split(sep)` for a one-character separator. -/
def split_on_char (sep : Char) (s : String) : List String :=
  (split_char_list sep s.data).map (fun l => ⟨l⟩)

/-- Model of Rust `str::trim`: drop whitespace from both ends. -/
def trim_string (s : String) : String :=
  ⟨((s.data.dropWhile Char.isWhitespace).reverse.dropWhile Char.isWhitespace).reverse⟩

/-- Helper for `split_whitespace`: accumulate the current word
(reversed) while scanning. -/
def split_whitespace_aux : List Char → List Char → List String
  | [], acc => if acc.isEmpty then [] else [⟨acc.reverse⟩]
  | c :: rest, acc =>
    if c.isWhitespace then
      if acc.isEmpty then split_whitespace_aux rest []
      else ⟨acc.reverse⟩ :: split_whitespace_aux rest []
    else split_whitespace_aux rest (c :: acc)

/-- Model of Rust `split_whitespace`: maximal runs of non-whitespace
characters. -/
def split_whitespace (s : String) : List String :=
  split_whitespace_aux s.data []

/-- Model of a Rust `HashMap` built by inserting key/value pairs in order;
a later insert with the same key overwrites the earlier one. -/
def hash_map_of_list (l : List (String × Nat)) : String → Option Nat :=
  l.foldl (fun m p => fun q => if q = p.1 then some p.2 else m q) (fun _ => none)

namespace Hackasm

/-- Source `PREDEFINED_SYMBOL` from `hackasm/src/main.rs`, verbatim: note
the duplicated `R7` entry where `R8` was evidently intended. -/
def PREDEFINED_SYMBOL : List (String × Nat) :=
  [("SP", 0), ("LCL", 1), ("ARG", 2), ("THIS", 3), ("THAT", 4),
   ("R0", 0), ("R1", 1), ("R2", 2), ("R3", 3), ("R4", 4), ("R5", 5),
   ("R6", 6), ("R7", 7), ("R7", 8), ("R9", 9), ("R10", 10), ("R11", 11),
   ("R12", 12), ("R13", 13), ("R14", 14), ("R15", 15),
   ("SCREEN", 0x4000), ("KBD", 0x6000)]

/-- The symbol table built in `main`:
`PREDEFINED_SYMBOL.iter().cloned().collect::<HashMap<_,_>>()`. -/
def symbol_table : String → Option Nat := hash_map_of_list PREDEFINED_SYMBOL

/-- Source `init_symbol_table`: the function body is empty, so the table
is returned unchanged (the `&mut` parameter is not touched). -/
def init_symbol_table (table : String → Option Nat) : String → Option Nat :=
  table

/-- C-instruction record from the source. -/
structure CInstruction where
  comp : String
  dest : Option String
  jump : Option String
deriving DecidableEq

/-- A-instruction record from the source (`value: u16`). -/
structure AInstruction where
  value : Nat
deriving DecidableEq

/-- Comp mnemonic encoding, from the `match self.comp.as_str()` arms of
`CInstruction::to_binary_text`; `none` models the `Err("Unknown comp")`
arm. -/
def comp_bits : String → Option String
  | "0" => some "0101010"
  | "1" => some "0111111"
  | "-1" => some "0111010"
  | "D" => some "0001100"
  | "A" => some "0110000"
  | "M" => some "1110000"
  | "!D" => some "0001101"
  | "!A" => some "0110001"
  | "!M" => some "1110001"
  | "-D" => some "0001111"
  | "-A" => some "0110011"
  | "-M" => some "1110011"
  | "D+1" => some "0011111"
  | "A+1" => some "0110111"
  | "M+1" => some "1110111"
  | "D-1" => some "0001110"
  | "A-1" => some "0110010"
  | "M-1" => some "1110010"
  | "D+A" => some "0000010"
  | "D+M" => some "1000010"
  | "D-A" => some "0010011"
  | "D-M" => some "1010011"
  | "A-D" => some "0000111"
  | "M-D" => some "1000111"
  | "D&A" => some "0000000"
  | "D&M" => some "1000000"
  | "D|A" => some "0010101"
  | "D|M" => some "1010101"
  | _ => none

/-- Dest mnemonic encoding, from the `match self.dest.as_deref()` arms. -/
def dest_bits : Option String → Option String
  | none => some "000"
  | some "M" => some "001"
  | some "D" => some "010"
  | some "MD" => some "011"
  | some "A" => some "100"
  | some "AM" => some "101"
  | some "AD" => some "110"
  | some "AMD" => some "111"
  | some _ => none

/-- Jump mnemonic encoding, from the `match self.jump.as_deref()` arms
(the source appends the trailing newline together with these bits). -/
def jump_bits : Option String → Option String
  | none => some "000"
  | some "JGT" => some "001"
  | some "JEQ" => some "010"
  | some "JGE" => some "011"
  | some "JLT" => some "100"
  | some "JNE" => some "101"
  | some "JLE" => some "110"
  | some "JMP" => some "111"
  | some _ => none

/-- Source `CInstruction::to_binary_text`: `111`, then comp, dest and jump
bits, with early `Err` returns for unknown mnemonics. -/
def CInstruction.to_binary_text (ci : CInstruction) : CResult String :=
  match comp_bits ci.comp with
  | none => .err "Unknown comp"
  | some cb =>
    match dest_bits ci.dest with
    | none => .err "Unknown dest"
    | some db =>
      match jump_bits ci.jump with
      | none => .err "Unknown jump"
      | some jb => .ok ("111" ++ cb ++ db ++ jb ++ "\n")

/-- Source `AInstruction::new`: split the line at `@`, parse the second
piece as `u16`; on failure look the symbol up in the table and `unwrap`
the result (an unknown symbol aborts the assembler). -/
def AInstruction.new (line : String) (table : String → Option Nat) :
    CResult AInstruction :=
  match split_on_char '@' line with
  | _ :: address_or_symbol :: _ =>
    match parse_unsigned 65535 address_or_symbol with
    | some value => .ok ⟨value⟩
    | none =>
      match table address_or_symbol with
      | some address => .ok ⟨address⟩
      | none => .panicked "called Option unwrap on a None value"
  | _ => .panicked "index out of bounds"

/-- Source `CInstruction::new`: locate `=` and `;` and split accordingly;
out-of-range vector indexing aborts. -/
def CInstruction.new (line : String) : CResult CInstruction :=
  let has_dest := line.data.contains '='
  let has_jmp := line.data.contains ';'
  if has_dest then
    match split_on_char '=' line with
    | dpart :: rest :: _ =>
      if has_jmp then
        match split_on_char ';' rest with
        | cpart :: jpart :: _ => .ok ⟨cpart, some dpart, some jpart⟩
        | _ => .panicked "index out of bounds"
      else .ok ⟨rest, some dpart, none⟩
    | _ => .panicked "index out of bounds"
  else
    if has_jmp then
      match split_on_char ';' line with
      | cpart :: jpart :: _ => .ok ⟨cpart, none, some jpart⟩
      | _ => .panicked "index out of bounds"
    else .ok ⟨line, none, none⟩

/-- Line classification from the source. -/
inductive LineType where
  | Blank
  | AInstructionLine
  | CInstructionLine
  | Label
deriving DecidableEq

/-- Instruction pushed to the output vector by `parse_line`. -/
inductive Instruction where
  | a (ai : AInstruction)
  | c (ci : CInstruction)
deriving DecidableEq

/-- Source `remove_comment`: truncate the line at the first `//`. -/
def remove_comment (line : String) : String :=
  match find_from "//".data line.data with
  | some pos => ⟨line.data.take pos⟩
  | none => line

/-- Source `parse_line` of the assembler.  The instruction it would push
into `instruction_output` is returned alongside the line type.  A label
line produces no instruction and — notably — no binding is added to the
symbol table anywhere. -/
def parse_line (line : String) (table : String → Option Nat) :
    CResult (LineType × Option Instruction) :=
  let trimmed := trim_string line
  let code := remove_comment trimmed
  if code.data.isEmpty then .ok (.Blank, none)
  else
    match code.data with
    | '@' :: _ =>
      match AInstruction.new code table with
      | .ok ainst => .ok (.AInstructionLine, some (.a ainst))
      | .err e => .err e
      | .panicked m => .panicked m
    | '(' :: _ => .ok (.Label, none)
    | _ =>
      match CInstruction.new code with
      | .ok cinst => .ok (.CInstructionLine, some (.c cinst))
      | .err e => .err e
      | .panicked m => .panicked m

end Hackasm

namespace HackSpec

/-- Comp table as written in the specification (§6.3), first bit the
`a` bit.  This is the reference the source table is compared against. -/
def spec_comp_table : List (String × String) :=
  [("0", "0101010"), ("1", "0111111"), ("-1", "0111010"), ("D", "0001100"),
   ("A", "0110000"), ("M", "1110000"), ("!D", "0001101"), ("!A", "0110001"),
   ("!M", "1110001"), ("-D", "0001111"), ("-A", "0110011"), ("-M", "1110011"),
   ("D+A", "0000010"), ("D+M", "1000010"), ("D-A", "0010011"), ("D-M", "1010011"),
   ("A-D", "0000111"), ("M-D", "1000111"), ("D&A", "0000000"), ("D&M", "1000000"),
   ("D|A", "0010101"), ("D|M", "1010101"), ("D+1", "0011111"), ("A+1", "0110111"),
   ("M+1", "1110111"), ("D-1", "0001110"), ("A-1", "0110010"), ("M-1", "1110010")]

/-- Dest encoding as written in the specification (§6.3):
`null=000, M=001, D=010, MD=011, A=100, AM=101, AD=110, AMD=111`
(an absent dest is the `null` row). -/
def spec_dest_table : List (Option String × String) :=
  [(none, "000"), (some "M", "001"), (some "D", "010"), (some "MD", "011"),
   (some "A", "100"), (some "AM", "101"), (some "AD", "110"), (some "AMD", "111")]

/-- Jump encoding as written in the specification (§6.3):
`null=000, JGT=001, JEQ=010, JGE=011, JLT=100, JNE=101, JLE=110, JMP=111`. -/
def spec_jump_table : List (Option String × String) :=
  [(none, "000"), (some "JGT", "001"), (some "JEQ", "010"), (some "JGE", "011"),
   (some "JLT", "100"), (some "JNE", "101"), (some "JLE", "110"), (some "JMP", "111")]

end HackSpec

namespace Hacktrans

/-- Source `ArithmeticType`. -/
inductive ArithmeticType where
  | Add | Sub | Neg | Eq | Gt | Lt | And | Or | Not
deriving DecidableEq

/-- Source `CommandType`. -/
inductive CommandType where
  | Arithmetic | Push | Pop | Label | GoTo | If | Function | Return | Call
deriving DecidableEq

/-- Source `SegmentType`. -/
inductive SegmentType where
  | Argument | Local | Static | Constant | This | That | Pointer | Temp
deriving DecidableEq

/-- The four command record types of `command.rs`, as one sum.  The
`command : CommandType` field each struct carries is kept verbatim. -/
inductive Command where
  | arithmetic (command : CommandType) (arith : ArithmeticType) (id : Nat)
  | memoryAccess (command : CommandType) (segment : SegmentType) (index : Nat)
  | programFlow (command : CommandType) (symbol : String)
  | functionCmd (command : CommandType) (name : Option String)
      (argument_num : Option Nat)
deriving DecidableEq

/-- Source `NULL_ID`. -/
def NULL_ID : Nat := 0

/-- Source `Counter`: per-kind counters for `eq`, `gt` and `lt`. -/
structure Counter where
  eq : Nat
  gt : Nat
  lt : Nat
deriving DecidableEq

/-- Source `Context` (the `prefix` field is named `pfx` here because
`prefix` is reserved in Lean). -/
structure Context where
  pfx : String
  function_name : String
  function_count : Nat
deriving DecidableEq

/-- Source `MemoryAccess::new`: decode the segment word (unknown segments
abort) and parse the index as `u32` (`unwrap` aborts on failure). -/
def MemoryAccess.new (command : CommandType) (segment : String)
    (index : String) : CResult Command :=
  let seg : CResult SegmentType :=
    match segment with
    | "argument" => .ok .Argument
    | "local" => .ok .Local
    | "static" => .ok .Static
    | "constant" => .ok .Constant
    | "this" => .ok .This
    | "that" => .ok .That
    | "temp" => .ok .Temp
    | "pointer" => .ok .Pointer
    | _ => .panicked "Unknown segment specified"
  CResult.bind seg (fun s =>
    match parse_unsigned 4294967295 index with
    | some idx => .ok (.memoryAccess command s idx)
    | none => .panicked "called Result unwrap on an Err value")

/-- Source `remove_comment` of the VM translator (identical to the
assembler one). -/
def remove_comment (line : String) : String :=
  match find_from "//".data line.data with
  | some pos => ⟨line.data.take pos⟩
  | none => line

/-- Source `parse_line` of `hacktrans/src/main.rs`: strip comments, split
into whitespace-separated words and dispatch on the first word.  The
`eq`, `gt` and `lt` arms increment their counter first (`0` is reserved
for `NULL_ID`) and use the incremented value as the command id. -/
def parse_line (line : String) (counter : Counter) :
    CResult (Option Command × Counter) :=
  let code := trim_string (remove_comment line)
  if code.data.isEmpty then .ok (none, counter)
  else
    match split_whitespace code with
    | [] => .panicked "called Option unwrap on a None value"
    | command :: rest =>
      match command with
      | "push" =>
        match rest with
        | seg :: idx :: _ =>
          CResult.bind (MemoryAccess.new .Push seg idx)
            (fun c => .ok (some c, counter))
        | _ => .panicked "called Option unwrap on a None value"
      | "pop" =>
        match rest with
        | seg :: idx :: _ =>
          CResult.bind (MemoryAccess.new .Pop seg idx)
            (fun c => .ok (some c, counter))
        | _ => .panicked "called Option unwrap on a None value"
      | "add" => .ok (some (.arithmetic .Arithmetic .Add NULL_ID), counter)
      | "sub" => .ok (some (.arithmetic .Arithmetic .Sub NULL_ID), counter)
      | "neg" => .ok (some (.arithmetic .Arithmetic .Neg NULL_ID), counter)
      | "eq" =>
        let c := { counter with eq := counter.eq + 1 }
        .ok (some (.arithmetic .Arithmetic .Eq c.eq), c)
      | "gt" =>
        let c := { counter with gt := counter.gt + 1 }
        .ok (some (.arithmetic .Arithmetic .Gt c.gt), c)
      | "lt" =>
        let c := { counter with lt := counter.lt + 1 }
        .ok (some (.arithmetic .Arithmetic .Lt c.lt), c)
      | "and" => .ok (some (.arithmetic .Arithmetic .And NULL_ID), counter)
      | "or" => .ok (some (.arithmetic .Arithmetic .Or NULL_ID), counter)
      | "not" => .ok (some (.arithmetic .Arithmetic .Not NULL_ID), counter)
      | "label" =>
        match rest with
        | sym :: _ => .ok (some (.programFlow .Label sym), counter)
        | _ => .panicked "called Option unwrap on a None value"
      | "goto" =>
        match rest with
        | sym :: _ => .ok (some (.programFlow .GoTo sym), counter)
        | _ => .panicked "called Option unwrap on a None value"
      | "if-goto" =>
        match rest with
        | sym :: _ => .ok (some (.programFlow .If sym), counter)
        | _ => .panicked "called Option unwrap on a None value"
      | "function" =>
        match rest with
        | name :: num :: _ =>
          match parse_unsigned 65535 num with
          | some n => .ok (some (.functionCmd .Function (some name) (some n)), counter)
          | none => .panicked "called Result unwrap on an Err value"
        | _ => .panicked "called Option unwrap on a None value"
      | "return" => .ok (some (.functionCmd .Return none none), counter)
      | "call" =>
        match rest with
        | name :: num :: _ =>
          match parse_unsigned 65535 num with
          | some n => .ok (some (.functionCmd .Call (some name) (some n)), counter)
          | none => .panicked "called Result unwrap on an Err value"
        | _ => .panicked "called Option unwrap on a None value"
      | _ => .ok (none, counter)

/-- Reading a whole input through `parse_line`, threading the counter and
collecting the parsed commands, as the loop in `main` does. -/
def run_parse : List String → Counter → CResult (List Command × Counter)
  | [], counter => .ok ([], counter)
  | l :: ls, counter =>
    match parse_line l counter with
    | .ok (none, c) => run_parse ls c
    | .ok (some cmd, c) =>
      match run_parse ls c with
      | .ok (cmds, cf) => .ok (cmd :: cmds, cf)
      | .err e => .err e
      | .panicked m => .panicked m
    | .err e => .err e
    | .panicked m => .panicked m

/-- Id of a command when it is an `eq` arithmetic command. -/
def eq_id? : Command → Option Nat
  | .arithmetic _ .Eq id => some id
  | _ => none

/-- Id of a command when it is a `gt` arithmetic command. -/
def gt_id? : Command → Option Nat
  | .arithmetic _ .Gt id => some id
  | _ => none

/-- Id of a command when it is an `lt` arithmetic command. -/
def lt_id? : Command → Option Nat
  | .arithmetic _ .Lt id => some id
  | _ => none

/-- Ids of the `eq` commands of a command list, in order. -/
def eq_ids (cmds : List Command) : List Nat := cmds.filterMap eq_id?

/-- Ids of the `gt` commands of a command list, in order. -/
def gt_ids (cmds : List Command) : List Nat := cmds.filterMap gt_id?

/-- Ids of the `lt` commands of a command list, in order. -/
def lt_ids (cmds : List Command) : List Nat := cmds.filterMap lt_id?

/-- Source `ADD_ASM`. -/
def ADD_ASM : String :=
  "@SP\nA=M\nA=A-1\nD=M\nA=A-1\nM=D+M\nD=A+1\n@SP\nM=D\n"

/-- Source `SUB_ASM`. -/
def SUB_ASM : String :=
  "@SP\nA=M\nA=A-1\nD=M\nA=A-1\nM=M-D\nD=A+1\n@SP\nM=D\n"

/-- Source `AND_ASM`. -/
def AND_ASM : String :=
  "@SP\nA=M\nA=A-1\nD=M\nA=A-1\nM=D&M\nD=A+1\n@SP\nM=D\n"

/-- Source `OR_ASM`. -/
def OR_ASM : String :=
  "@SP\nA=M\nA=A-1\nD=M\nA=A-1\nM=D|M\nD=A+1\n@SP\nM=D\n"

/-- Source `NEG_ASM`. -/
def NEG_ASM : String :=
  "@SP\nA=M\nA=A-1\nD=M\nM=-M\nD=A+1\n@SP\nM=D\n"

/-- Source `NOT_ASM`. -/
def NOT_ASM : String :=
  "@SP\nA=M\nA=A-1\nD=M\nM=!M\nD=A+1\n@SP\nM=D\n"

/-- Jump label used by the `eq` template. -/
def eq_label (id : Nat) : String := "IsEq." ++ Nat.repr id

/-- Jump labels used by the `gt` template. -/
def gt_label (id : Nat) : String := "IsGt." ++ Nat.repr id

/-- Second jump label used by the `gt` template. -/
def gt_out_label (id : Nat) : String := "WriteGtOutput." ++ Nat.repr id

/-- Jump labels used by the `lt` template. -/
def lt_label (id : Nat) : String := "IsGe." ++ Nat.repr id

/-- Second jump label used by the `lt` template. -/
def lt_out_label (id : Nat) : String := "WriteLtOutput." ++ Nat.repr id

/-- Assembly text of the `eq` arm of `Arithmetic::to_asm_text`. -/
def eq_asm (id : Nat) : String :=
  "@SP\nA=M\nA=A-1\nD=M\nA=A-1\nD=M-D\n@" ++ eq_label id ++
  "\nD;JEQ\nD=-1\n(" ++ eq_label id ++
  ")\n@SP\nA=M-1\nA=A-1\nM=!D\nD=A+1\n@SP\nM=D\n"

/-- Assembly text of the `lt` arm of `Arithmetic::to_asm_text`. -/
def lt_asm (id : Nat) : String :=
  "@SP\nA=M\nA=A-1\nD=M\nA=A-1\nD=M-D\n@" ++ lt_label id ++
  "\nD;JGE\nD=-1\n@" ++ lt_out_label id ++ "\n0;JMP\n(" ++ lt_label id ++
  ")\nD=0\n(" ++ lt_out_label id ++
  ")\n@SP\nA=M-1\nA=A-1\nM=D\nD=A+1\n@SP\nM=D\n"

/-- Assembly text of the `gt` arm of `Arithmetic::to_asm_text`. -/
def gt_asm (id : Nat) : String :=
  "@SP\nA=M\nA=A-1\nD=M\nA=A-1\nD=M-D\n@" ++ gt_label id ++
  "\nD;JGT\nD=0\n@" ++ gt_out_label id ++ "\n0;JMP\n(" ++ gt_label id ++
  ")\nD=-1\n(" ++ gt_out_label id ++
  ")\n@SP\nA=M-1\nA=A-1\nM=D\nD=A+1\n@SP\nM=D\n"

/-- Source `Arithmetic::to_asm_text`: fixed templates, with the command
id spliced into the jump labels of the comparison templates. -/
def arithmetic_to_asm_text (arith : ArithmeticType) (id : Nat) :
    CResult String :=
  match arith with
  | .Add => .ok ADD_ASM
  | .Sub => .ok SUB_ASM
  | .And => .ok AND_ASM
  | .Or => .ok OR_ASM
  | .Neg => .ok NEG_ASM
  | .Not => .ok NOT_ASM
  | .Eq => .ok (eq_asm id)
  | .Lt => .ok (lt_asm id)
  | .Gt => .ok (gt_asm id)

/-- Source `ProgramFlow::to_asm_text`. -/
def program_flow_to_asm_text (command : CommandType) (symbol : String)
    (context : Context) : CResult String :=
  let target_label := context.pfx ++ "." ++ symbol
  match command with
  | .Label => .ok ("(" ++ target_label ++ ")\n")
  | .If => .ok ("@SP\nAM=M-1\nD=M\n@" ++ target_label ++ "\nD;JNE\n")
  | .GoTo => .ok ("@" ++ target_label ++ "\n0;JMP\n")
  | _ => .err "Unsupported CommandType"

/-- Source `Function::to_asm_text`.  The `Call` arm is an unfinished
stub: `return_label` and the emitted string are both `format!("")`, so a
`call` command translates to the empty string. -/
def function_to_asm_text (command : CommandType) (name : Option String)
    (argument_num : Option Nat) (context : Context) : CResult String :=
  match command with
  | .Function =>
    match name, argument_num with
    | some n, some k =>
      .ok ("(" ++ n ++ ")\n@SP\nA=M\n" ++
        String.join (List.replicate k "M=0\nA=A+1\n") ++ "D=A\n@SP\nM=D\n")
    | _, _ => .panicked "called Option unwrap on a None value"
  | .Return =>
    let return_address := context.pfx ++ ".ret"
    .ok ("@LCL\nD=M\n@5\nA=D-A\nD=M\n@" ++ return_address ++
      "\nM=D\n@SP\nA=M-1\nD=M\n@ARG\nA=M\nM=D\n// reposition stack pointer\nD=A+1\n@SP\nM=D\n// restore segment address\n@LCL\nA=M-1\nD=M\n@THAT\nM=D\n@LCL\nA=M-1\nA=A-1\nD=M\n@THIS\nM=D\n@LCL\nD=M\n@3\nA=D-A\nD=M\n@ARG\nM=D\n@LCL\nD=M\n@4\nA=D-A\nD=M\n@LCL\nM=D\n// goto return address\n@" ++
      return_address ++ "\nA=M;JMP\n")
  | .Call => .ok ""
  | _ => .err "Unsupported Function command"

end Hacktrans

namespace Jack

/-- Opening brace character (written by code to keep braces out of string
literals). -/
def lbrace : Char := Char.ofNat 123

/-- Closing brace character. -/
def rbrace : Char := Char.ofNat 125

/-- Double-quote character. -/
def dquote : Char := Char.ofNat 34

/-- Token type of the tokenizer, with the wrapped structs flattened to
their single field. -/
inductive Token where
  | keyword (value : String)
  | symbol (value : Char)
  | identifier (value : String)
  | integerConstant (value : Nat)
  | stringConstant (value : String)
deriving DecidableEq

/-- Source `SYMBOL_LIST` (19 reserved symbol characters, source order). -/
def SYMBOL_LIST : List Char :=
  [rbrace, lbrace, ')', '(', '[', ']', '.', ',', ';', '+', '-', '*', '/',
   '&', '|', '<', '>', '=', '~']

/-- Source `KEYWORD_LIST` (21 reserved words, source order). -/
def KEYWORD_LIST : List String :=
  ["class", "constructor", "function", "method", "field", "static", "var",
   "int", "char", "boolean", "void", "true", "false", "null", "this",
   "let", "do", "if", "else", "while", "return"]

/-- Source `CommentState`. -/
structure CommentState where
  in_region : Bool
  next_maybe_line_begin : Bool
  next_maybe_region_begin : Bool
  next_maybe_region_end : Bool
deriving DecidableEq

/-- Source `LineParseResult`. -/
inductive LineParseResult where
  | LineComment
  | Continue
deriving DecidableEq

/-- Source `update_comment_state`; the updated state is returned instead
of mutated in place. -/
def update_comment_state (state : CommentState) (c : Char) :
    CommentState × LineParseResult :=
  if state.in_region then
    if c = '/' then
      if state.next_maybe_region_end then
        ({ state with in_region := false, next_maybe_region_end := false }, .Continue)
      else (state, .Continue)
    else if c = '*' then
      if ¬state.next_maybe_region_end then
        ({ state with next_maybe_region_end := true }, .Continue)
      else (state, .Continue)
    else ({ state with next_maybe_region_end := false }, .Continue)
  else
    if c = '/' then
      if state.next_maybe_line_begin then (state, .LineComment)
      else
        ({ state with next_maybe_line_begin := true, next_maybe_region_begin := true }, .Continue)
    else if c = '*' then
      if state.next_maybe_region_begin then
        ({ state with in_region := true, next_maybe_line_begin := false, next_maybe_region_begin := false }, .Continue)
      else (state, .Continue)
    else
      ({ state with next_maybe_line_begin := false, next_maybe_region_begin := false }, .Continue)

/-- Source `extract_token`: a one-character reserved symbol, else a token
starting with an ASCII digit is parsed as `u16` (`unwrap` aborts on a
malformed or too large number), else keyword, else identifier. -/
def extract_token (stash : List Char) : CResult Token :=
  match stash with
  | [] => .err "Empty stash given"
  | c :: cs =>
    let word : String := ⟨c :: cs⟩
    if (c :: cs).length = 1 ∧ c ∈ SYMBOL_LIST then .ok (.symbol c)
    else if c.isDigit then
      match parse_unsigned 65535 word with
      | some v => .ok (.integerConstant v)
      | none => .panicked "called Result unwrap on an Err value"
    else if word ∈ KEYWORD_LIST then .ok (.keyword word)
    else .ok (.identifier word)

/-- Source `LineContext`. -/
structure LineContext where
  comment : CommentState
  in_string : Bool
  char_stash : List Char
deriving DecidableEq

/-- Character loop of the source `parse_line` of the tokenizer, one
character at a time; emitted tokens are collected in order, and a line
comment breaks out of the loop.  The `unwrap` of an `extract_token`
failure aborts. -/
def parse_line_aux : LineContext → List Char → CResult (List Token × LineContext)
  | ctx, [] => .ok ([], ctx)
  | ctx, c :: rest =>
    if ctx.in_string then
      if c = dquote then
        match parse_line_aux { ctx with char_stash := [], in_string := false } rest with
        | .ok (toks, ctx2) => .ok (.stringConstant ⟨ctx.char_stash⟩ :: toks, ctx2)
        | other => other
      else parse_line_aux { ctx with char_stash := ctx.char_stash ++ [c] } rest
    else
      match update_comment_state ctx.comment c with
      | (st, .LineComment) => .ok ([], { ctx with comment := st })
      | (st, .Continue) =>
        if st.in_region then
          parse_line_aux { ctx with comment := st, char_stash := [] } rest
        else if c.isWhitespace then
          if ctx.char_stash.isEmpty then
            parse_line_aux { ctx with comment := st } rest
          else
            match extract_token ctx.char_stash with
            | .ok tok =>
              match parse_line_aux { ctx with comment := st, char_stash := [] } rest with
              | .ok (toks, ctx2) => .ok (tok :: toks, ctx2)
              | other => other
            | .err _ => .panicked "called Result unwrap on an Err value"
            | .panicked m => .panicked m
        else if c = dquote then
          parse_line_aux { ctx with comment := st, in_string := true } rest
        else if c ∈ SYMBOL_LIST then
          if c = '/' then
            parse_line_aux { ctx with comment := st, char_stash := ctx.char_stash ++ [c] } rest
          else
            if ctx.char_stash.isEmpty then
              match parse_line_aux { ctx with comment := st, char_stash := [] } rest with
              | .ok (toks, ctx2) => .ok (.symbol c :: toks, ctx2)
              | other => other
            else
              match extract_token ctx.char_stash with
              | .ok tok =>
                match parse_line_aux { ctx with comment := st, char_stash := [] } rest with
                | .ok (toks, ctx2) => .ok (tok :: .symbol c :: toks, ctx2)
                | other => other
              | .err _ => .panicked "called Result unwrap on an Err value"
              | .panicked m => .panicked m
        else
          parse_line_aux { ctx with comment := st, char_stash := ctx.char_stash ++ [c] } rest

/-- Source `parse_line` of the tokenizer: start from the carried
`in_comment` flag, run the character loop, and carry the final in-region
flag to the next line.  Leftover stash characters are dropped, as in the
source. -/
def parse_line (in_comment : Bool) (line : String) : CResult (List Token × Bool) :=
  match parse_line_aux ⟨⟨in_comment, false, false, false⟩, false, []⟩ line.data with
  | .ok (toks, ctx) => .ok (toks, ctx.comment.in_region)
  | .err e => .err e
  | .panicked m => .panicked m

/-- Source `generate_token_list`, over the list of lines of the input:
fold `parse_line` with the carried `in_comment` flag, appending tokens. -/
def generate_token_list : Bool → List String → CResult (List Token)
  | _, [] => .ok []
  | in_comment, l :: ls =>
    match parse_line in_comment l with
    | .ok (toks, in_comment2) =>
      match generate_token_list in_comment2 ls with
      | .ok toks2 => .ok (toks ++ toks2)
      | other => other
    | .err e => .err e
    | .panicked m => .panicked m

end Jack

namespace Jack

mutual

/-- Term node of the parser AST (`Term` in `parser.rs`), with the wrapper
structs flattened to their payloads. -/
inductive JTerm where
  | integer (value : Nat)
  | stringC (value : String)
  | keywordC (value : String)
  | varName (name : String)
  | arrayVar (name : String) (index : JExpr)
  | subroutineCall (call : JCall)
  | paren (e : JExpr)
  | unaryOp (op : Char) (t : JTerm)

/-- Expression node (`Expression { terms, ops }`); an op holds just its
symbol character. -/
inductive JExpr where
  | mk (terms : List JTerm) (ops : List Char)

/-- Subroutine call node (`CallType`): an unqualified `FunctionCall` or a
dotted `MethodCall`. -/
inductive JCall where
  | functionCall (name : String) (params : List JExpr)
  | methodCall (source_name : String) (method_name : String) (params : List JExpr)

end

/-- Terms list of an expression. -/
def JExpr.terms : JExpr → List JTerm
  | .mk t _ => t

/-- Ops list of an expression. -/
def JExpr.ops : JExpr → List Char
  | .mk _ o => o

@[simp]
theorem JExpr.terms_mk (t : List JTerm) (o : List Char) : (JExpr.mk t o).terms = t := rfl

@[simp]
theorem JExpr.ops_mk (t : List JTerm) (o : List Char) : (JExpr.mk t o).ops = o := rfl

/-- Source `ReturnType`. -/
inductive ReturnType where
  | Void
  | Int
  | Char
  | Boolean
  | Class (name : String)
deriving DecidableEq

/-- Source `SymbolCategory`. -/
inductive SymbolCategory where
  | Var
  | Argument
  | Static
  | Field
deriving DecidableEq

/-- Source `SymbolType`. -/
inductive SymbolType where
  | Int
  | Char
  | Boolean
  | Class (name : String)
deriving DecidableEq

/-- Source `SymbolTableEntry`. -/
structure SymbolTableEntry where
  category : SymbolCategory
  symbol_type : SymbolType
  index : Nat
deriving DecidableEq

/-- Source `ParseInfo`; the two hash maps consulted during compilation
are modelled as lookup functions (the class symbol table is never
consulted on the compilation paths embedded here, matching the source
where that branch is an unimplemented abort). -/
structure ParseInfo where
  symbol_table_per_method : String → Option (String → Option SymbolTableEntry)
  return_type : String → Option ReturnType

/-- Source `CompileState` restricted to the fields the expression and
call compilers read (`class_name` and the subroutine name inside
`func_state`; the if/while label counters belong to statement
compilation, which is not embedded). -/
structure CompileState where
  class_name : String
  subroutine_name : String

/-- Source `CompileState::full_method_name`. -/
def CompileState.full_method_name (s : CompileState) : String :=
  s.class_name ++ "." ++ s.subroutine_name

/-- Source `init_os_functions`, verbatim (note `String.dispose` is
registered as `Int` in the source). -/
def os_functions : List (String × ReturnType) :=
  [("Math.multiply", .Int), ("Math.divide", .Int), ("Math.min", .Int),
   ("Math.max", .Int), ("Math.sqrt", .Int),
   ("String.new", .Class "String"), ("String.dispose", .Int),
   ("String.length", .Int), ("String.charAt", .Char),
   ("String.setCharAt", .Void), ("String.appendChar", .Class "String"),
   ("String.eraseLastChar", .Void), ("String.intValue", .Int),
   ("String.setInt", .Void), ("String.backSpace", .Char),
   ("String.doubleQuote", .Char), ("String.newLine", .Char),
   ("Array.new", .Class "Array"), ("Array.dispose", .Void),
   ("Output.moveCursor", .Void), ("Output.printChar", .Void),
   ("Output.printString", .Void), ("Output.printInt", .Void),
   ("Output.println", .Void), ("Output.backSpace", .Void),
   ("Screen.clearScreen", .Void), ("Screen.setColor", .Void),
   ("Screen.drawPixel", .Void), ("Screen.drawLine", .Void),
   ("Screen.drawRectangle", .Void), ("Screen.drawCircle", .Void),
   ("Keyboard.keyPressed", .Char), ("Keyboard.readChar", .Char),
   ("Keyboard.readLine", .Class "String"), ("Keyboard.readInt", .Int),
   ("Memory.peek", .Int), ("Memory.poke", .Void),
   ("Memory.alloc", .Class "Array"), ("Memory.dealloc", .Void),
   ("Sys.halt", .Void), ("Sys.error", .Void), ("Sys.wait", .Void)]

/-- Return-type registry pre-seeded with the OS functions, as built by
`ParseInfo::new`. -/
def os_return_type : String → Option ReturnType :=
  os_functions.foldl (fun m p => fun q => if q = p.1 then some p.2 else m q)
    (fun _ => none)

/-- Source `Op::compile`: the binary operator translation table. -/
def op_compile (c : Char) : CResult (List String) :=
  if c = '+' then .ok ["add"]
  else if c = '-' then .ok ["sub"]
  else if c = '=' then .ok ["eq"]
  else if c = '>' then .ok ["gt"]
  else if c = '<' then .ok ["lt"]
  else if c = '&' then .ok ["and"]
  else if c = '|' then .ok ["or"]
  else if c = '~' then .ok ["not"]
  else if c = '*' then .ok ["call Math.multiply 2"]
  else if c = '/' then .ok ["call Math.divide 2"]
  else .panicked "Unexpected symbol"

/-- Source `KeywordTerm::compile`. -/
def keyword_term_compile (kw : String) : CResult (List String) :=
  if kw = "true" then .ok ["push constant 0", "not"]
  else if kw = "false" then .ok ["push constant 0"]
  else if kw = "null" then .panicked "Not implemented"
  else if kw = "this" then .panicked "Not implemented"
  else .panicked "Unexpected Keyword"

/-- Source `VarNameTerm::compile`: resolve the name in the subroutine
symbol table of the current method (missing table, missing entry, class
typed entries and static/field categories all abort, as in the source). -/
def var_name_term_compile (info : ParseInfo) (state : CompileState)
    (name : String) : CResult (List String) :=
  match info.symbol_table_per_method state.full_method_name with
  | some tbl =>
    match tbl name with
    | some entry =>
      match entry.symbol_type with
      | .Class _ => .panicked "NotImplemented"
      | _ =>
        match entry.category with
        | .Argument => .ok ["push argument " ++ Nat.repr entry.index]
        | .Var => .ok ["push local " ++ Nat.repr entry.index]
        | _ => .panicked "NotImplemented"
    | none => .panicked "called Option unwrap on a None value"
  | none => .panicked "NotImplemented"

mutual

/-- Source `Term::compile` (fuel only bounds the recursion depth; the
source recursion is structural on the AST, so any fuel at least the AST
size gives the source behavior). -/
def term_compile : Nat → ParseInfo → CompileState → JTerm → CResult (List String)
  | 0, _, _, _ => .panicked "out of fuel"
  | _ + 1, _, _, .integer v => .ok ["push constant " ++ Nat.repr v]
  | _ + 1, _, _, .stringC _ => .ok []
  | fuel + 1, info, state, .paren e => expr_compile fuel info state e
  | fuel + 1, info, state, .unaryOp op t =>
    CResult.bind (term_compile fuel info state t) (fun out =>
      if op = '-' then .ok (out ++ ["neg"])
      else if op = '~' then .ok (out ++ ["not"])
      else .panicked "Unexpected symbol")
  | fuel + 1, info, state, .subroutineCall c => call_compile fuel info state c
  | _ + 1, info, state, .varName n => var_name_term_compile info state n
  | _ + 1, _, _, .keywordC kw => keyword_term_compile kw
  | _ + 1, _, _, .arrayVar _ _ => .panicked "NotImplemented"

/-- Source `Expression::compile`: the two leading asserts
(`term_len > 0` and `ops.len() == term_len - 1`), then postfix emission:
first term, then for each following term the term and the joining op. -/
def expr_compile : Nat → ParseInfo → CompileState → JExpr → CResult (List String)
  | 0, _, _, _ => .panicked "out of fuel"
  | fuel + 1, info, state, .mk terms ops =>
    match terms with
    | [] => .panicked "assertion failed"
    | t :: ts =>
      if ops.length = ts.length then
        CResult.bind (term_compile fuel info state t) (fun h =>
          CResult.bind (terms_ops_compile fuel info state ts ops) (fun r =>
            .ok (h ++ r)))
      else .panicked "assertion failed"

/-- Tail of the postfix loop of `Expression::compile`: `terms[i]` then
`ops[i-1]` for `i = 1..`. -/
def terms_ops_compile : Nat → ParseInfo → CompileState → List JTerm → List Char → CResult (List String)
  | 0, _, _, _, _ => .panicked "out of fuel"
  | _ + 1, _, _, [], _ => .ok []
  | fuel + 1, info, state, t :: ts, ops =>
    match ops with
    | o :: os =>
      CResult.bind (term_compile fuel info state t) (fun a =>
        CResult.bind (op_compile o) (fun b =>
          CResult.bind (terms_ops_compile fuel info state ts os) (fun r =>
            .ok (a ++ b ++ r))))
    | [] => .panicked "index out of bounds"

/-- Source `ExpressionList::compile`: compile each argument expression in
order and concatenate. -/
def expression_list_compile : Nat → ParseInfo → CompileState → List JExpr → CResult (List String)
  | 0, _, _, _ => .panicked "out of fuel"
  | _ + 1, _, _, [] => .ok []
  | fuel + 1, info, state, e :: es =>
    CResult.bind (expr_compile fuel info state e) (fun a =>
      CResult.bind (expression_list_compile fuel info state es) (fun b =>
        .ok (a ++ b)))

/-- Source `CallType::compile`, dispatching to `FunctionCall::compile`
(arguments, then `call name n` with `n` the number of argument
expressions, and nothing else) or `MethodCall::compile` (arguments, then
`call X.f n` under the literal key `X.f`, then `pop temp 0` exactly when
the looked-up return type is `Void`; a missing key aborts through
`unwrap`). -/
def call_compile : Nat → ParseInfo → CompileState → JCall → CResult (List String)
  | 0, _, _, _ => .panicked "out of fuel"
  | fuel + 1, info, state, .functionCall name ps =>
    CResult.bind (expression_list_compile fuel info state ps) (fun out =>
      .ok (out ++ ["call " ++ name ++ " " ++ Nat.repr ps.length]))
  | fuel + 1, info, state, .methodCall src m ps =>
    CResult.bind (expression_list_compile fuel info state ps) (fun out =>
      let caller := src ++ "." ++ m
      match info.return_type caller with
      | some rt =>
        .ok (out ++ ["call " ++ caller ++ " " ++ Nat.repr ps.length] ++
          (if rt = .Void then ["pop temp 0"] else []))
      | none => .panicked "called Option unwrap on a None value")

end

/-- Source `DoStatement::compile`: it only forwards to the subroutine
call compiler and adds nothing of its own. -/
def do_statement_compile (fuel : Nat) (info : ParseInfo) (state : CompileState)
    (call : JCall) : CResult (List String) :=
  call_compile fuel info state call

end Jack

namespace Jack

mutual

/-- Source `parse_term` (fuel only bounds the recursion depth): dispatch
on the token at `token_index`; after an identifier, one token of
lookahead distinguishes array indexing, the unimplemented unqualified
call, a dotted method call, and a bare variable name.  Out-of-bounds
indexing and failing `symbol()/identifier()` unwraps abort; grammar
violations return `err`. -/
def parse_term : Nat → List Token → Nat → CResult (JTerm × Nat)
  | 0, _, _ => .panicked "out of fuel"
  | fuel + 1, tokens, token_index =>
    match tokens.get? token_index with
    | none => .panicked "index out of bounds"
    | some (.integerConstant v) => .ok (.integer v, token_index + 1)
    | some (.stringConstant s) => .ok (.stringC s, token_index + 1)
    | some (.keyword kw) =>
      if kw = "this" ∨ kw = "null" ∨ kw = "true" ∨ kw = "false" then
        .ok (.keywordC kw, token_index + 1)
      else if kw ∈ KEYWORD_LIST then .err "UnexpectedKeyword"
      else .panicked "Unknowon keyword"
    | some (.identifier id) =>
      match tokens.get? (token_index + 1) with
      | none => .panicked "index out of bounds"
      | some (.symbol s) =>
        if s = '[' then
          match parse_expression fuel (.mk [] []) tokens (token_index + 2) with
          | .ok (e, i2) =>
            match tokens.get? i2 with
            | none => .panicked "index out of bounds"
            | some (.symbol cb) =>
              if cb = ']' then .ok (.arrayVar id e, i2 + 1)
              else .err "UnexpectedSymbol"
            | some _ => .panicked "called Option unwrap on a None value"
          | .err e => .err e
          | .panicked m => .panicked m
        else if s = '(' then .panicked "NotImplemented"
        else if s = '.' then
          match tokens.get? (token_index + 2) with
          | none => .panicked "index out of bounds"
          | some (.identifier sub) =>
            match tokens.get? (token_index + 3) with
            | none => .panicked "index out of bounds"
            | some (.symbol op) =>
              if op = '(' then
                match parse_expression_list fuel ([], []) tokens (token_index + 4) with
                | .ok ((ps, _ds), i4) =>
                  match tokens.get? i4 with
                  | none => .panicked "index out of bounds"
                  | some (.symbol cp) =>
                    if cp = ')' then
                      .ok (.subroutineCall (.methodCall id sub ps), i4 + 1)
                    else .err "UnexpectedSymbol"
                  | some _ => .panicked "called Option unwrap on a None value"
                | .err e => .err e
                | .panicked m => .panicked m
              else .err "UnexpectedSymbol"
            | some _ => .panicked "called Option unwrap on a None value"
          | some _ => .panicked "called Option unwrap on a None value"
        else .ok (.varName id, token_index + 1)
      | some _ => .ok (.varName id, token_index + 1)
    | some (.symbol s) =>
      if s = '(' then
        match parse_expression fuel (.mk [] []) tokens (token_index + 1) with
        | .ok (e, i2) =>
          match tokens.get? i2 with
          | none => .panicked "index out of bounds"
          | some (.symbol cb) =>
            if cb = ')' then .ok (.paren e, i2 + 1)
            else .err "UnexpectedSymbol"
          | some _ => .panicked "called Option unwrap on a None value"
        | .err e => .err e
        | .panicked m => .panicked m
      else if s = '-' ∨ s = '~' then
        match parse_term fuel tokens (token_index + 1) with
        | .ok (t, i2) => .ok (.unaryOp s t, i2)
        | .err e => .err e
        | .panicked m => .panicked m
      else .err "UnexpectedSymbol"

/-- Source `parse_expression` (the loop is the fuel-indexed recursion):
`-` begins a unary term only when `target.terms` is still empty and is a
binary op otherwise; `~` always begins a unary term; the other binary
ops are pushed onto `ops`; `) ] ; ,` end the expression; anything else
is parsed as a term and pushed onto `terms`. -/
def parse_expression : Nat → JExpr → List Token → Nat → CResult (JExpr × Nat)
  | 0, _, _, _ => .panicked "out of fuel"
  | fuel + 1, target, tokens, token_index =>
    match tokens.get? token_index with
    | none => .panicked "index out of bounds"
    | some (.symbol s) =>
      if s = '-' then
        if target.terms.isEmpty then
          match parse_term fuel tokens (token_index + 1) with
          | .ok (t, i2) =>
            parse_expression fuel (.mk (target.terms ++ [.unaryOp '-' t]) target.ops) tokens i2
          | .err e => .err e
          | .panicked m => .panicked m
        else
          parse_expression fuel (.mk target.terms (target.ops ++ ['-'])) tokens (token_index + 1)
      else if s = '~' then
        match parse_term fuel tokens (token_index + 1) with
        | .ok (t, i2) =>
          parse_expression fuel (.mk (target.terms ++ [.unaryOp '~' t]) target.ops) tokens i2
        | .err e => .err e
        | .panicked m => .panicked m
      else if s = '+' ∨ s = '*' ∨ s = '/' ∨ s = '&' ∨ s = '|' ∨ s = '<' ∨ s = '>' ∨ s = '=' then
        parse_expression fuel (.mk target.terms (target.ops ++ [s])) tokens (token_index + 1)
      else if s = ')' ∨ s = ']' ∨ s = ';' ∨ s = ',' then .ok (target, token_index)
      else
        match parse_term fuel tokens token_index with
        | .ok (t, i2) =>
          parse_expression fuel (.mk (target.terms ++ [t]) target.ops) tokens i2
        | .err e => .err e
        | .panicked m => .panicked m
    | some _ =>
      match parse_term fuel tokens token_index with
      | .ok (t, i2) =>
        parse_expression fuel (.mk (target.terms ++ [t]) target.ops) tokens i2
      | .err e => .err e
      | .panicked m => .panicked m

/-- Source `parse_expression_list` (the loop is the fuel-indexed
recursion): `)` ends the list, `,` is pushed as a delimiter, anything
else starts a fresh expression parsed from scratch. -/
def parse_expression_list : Nat → (List JExpr × List Char) → List Token → Nat → CResult ((List JExpr × List Char) × Nat)
  | 0, _, _, _ => .panicked "out of fuel"
  | fuel + 1, target, tokens, token_index =>
    match tokens.get? token_index with
    | none => .panicked "index out of bounds"
    | some (.symbol s) =>
      if s = ')' then .ok (target, token_index)
      else if s = ',' then
        parse_expression_list fuel (target.1, target.2 ++ [s]) tokens (token_index + 1)
      else
        match parse_expression fuel (.mk [] []) tokens token_index with
        | .ok (e, i2) => parse_expression_list fuel (target.1 ++ [e], target.2) tokens i2
        | .err e => .err e
        | .panicked m => .panicked m
    | some _ =>
      match parse_expression fuel (.mk [] []) tokens token_index with
      | .ok (e, i2) => parse_expression_list fuel (target.1 ++ [e], target.2) tokens i2
      | .err e => .err e
      | .panicked m => .panicked m

end

end Jack

/-- A VM `call` line never equals the `pop temp 0` line. -/
theorem call_line_ne_pop (s : String) : ("call " ++ s) ≠ "pop temp 0" := by
  intro h
  have h2 := congrArg String.data h
  rw [String.data_append] at h2
  simp at h2

/-- No reserved Jack symbol character is an ASCII digit. -/
theorem symbol_list_not_digit :
    Jack.SYMBOL_LIST.all (fun c => !c.isDigit) = true := by decide

/-- A digit character is not a reserved Jack symbol. -/
theorem not_symbol_of_digit {c : Char} (h : c.isDigit = true) :
    c ∉ Jack.SYMBOL_LIST := by
  intro hm
  have h2 := List.all_eq_true.mp symbol_list_not_digit c hm
  simp [h] at h2

/-- Reduction of `parse_unsigned` on a digit-initial character list. -/
theorem parse_unsigned_digit_head {c : Char} (cs : List Char) (bound : Nat)
    (h : c.isDigit = true) :
    parse_unsigned bound ⟨c :: cs⟩ =
      if (c :: cs).all Char.isDigit ∧ digits_value (c :: cs) ≤ bound then
        some (digits_value (c :: cs))
      else none := by
  have hplus : ¬(c = '+') := by
    intro e
    subst e
    simp [Char.isDigit] at h
  simp only [parse_unsigned, if_neg hplus]
  simp

/-- C1: the specified two-pass symbol resolution is absent from the code:
`init_symbol_table` is an empty stub that leaves the table untouched, a
label line is classified but binds nothing, and an A-instruction whose
operand is a symbol outside the predefined table makes the assembler
abort through `unwrap` instead of binding the symbol to the next free RAM
slot starting at 16. -/
theorem c1_assembler_symbol_resolution_unimplemented :
    (∀ t, Hackasm.init_symbol_table t = t) ∧
    Hackasm.parse_line "(LOOP)" Hackasm.symbol_table = .ok (.Label, none) ∧
    Hackasm.AInstruction.new "@i" (Hackasm.init_symbol_table Hackasm.symbol_table)
      = .panicked "called Option unwrap on a None value" ∧
    Hackasm.parse_line "@i" Hackasm.symbol_table
      = .panicked "called Option unwrap on a None value" :=
  ⟨fun _ => rfl, by decide, by decide, by decide⟩

/-- C2: the translation of a VM `call` command is an unfinished stub: for
`call Foo.bar 3` issued inside function `Baz.qux` the emitted assembly is
the empty string, not the frame-pushing sequence with return label
`Baz.qux$ret.1` that the specification describes. -/
theorem c2_call_translation_empty :
    Hacktrans.function_to_asm_text .Call (some "Foo.bar") (some 3)
      ⟨"Baz", "Baz.qux", 1⟩ = .ok "" ∧
    ("Baz.qux$ret.1" : String) ≠ "" :=
  ⟨rfl, by decide⟩

/-- C8: the predefined symbol table binds `SP LCL ARG THIS THAT SCREEN
KBD` and most `Ri` as specified, but contains no binding for `R8` at all
and binds `R7` to 8 (the source list has a duplicated `R7` entry in the
place of `R8`, and the later insert wins in the hash map). -/
theorem c8_predefined_symbol_table :
    Hackasm.symbol_table "SP" = some 0 ∧
    Hackasm.symbol_table "LCL" = some 1 ∧
    Hackasm.symbol_table "ARG" = some 2 ∧
    Hackasm.symbol_table "THIS" = some 3 ∧
    Hackasm.symbol_table "THAT" = some 4 ∧
    Hackasm.symbol_table "SCREEN" = some 16384 ∧
    Hackasm.symbol_table "KBD" = some 24576 ∧
    Hackasm.symbol_table "R0" = some 0 ∧
    Hackasm.symbol_table "R1" = some 1 ∧
    Hackasm.symbol_table "R2" = some 2 ∧
    Hackasm.symbol_table "R3" = some 3 ∧
    Hackasm.symbol_table "R4" = some 4 ∧
    Hackasm.symbol_table "R5" = some 5 ∧
    Hackasm.symbol_table "R6" = some 6 ∧
    Hackasm.symbol_table "R9" = some 9 ∧
    Hackasm.symbol_table "R10" = some 10 ∧
    Hackasm.symbol_table "R11" = some 11 ∧
    Hackasm.symbol_table "R12" = some 12 ∧
    Hackasm.symbol_table "R13" = some 13 ∧
    Hackasm.symbol_table "R14" = some 14 ∧
    Hackasm.symbol_table "R15" = some 15 ∧
    Hackasm.symbol_table "R8" = none ∧
    Hackasm.symbol_table "R7" = some 8 := by
  decide

/-- C9: a block comment does not always leave the token stream of the
comment-free source: the closing `/` of `*/` is re-stashed as a potential
division symbol, so `/**/ ;` tokenizes to a spurious `/` symbol followed
by `;`, while the comment-free ` ;` tokenizes to `;` alone.  The
in-comment flag itself is carried across lines correctly: a comment
spanning a line break whose `*/` ends the line yields no tokens. -/
theorem c9_block_comment_spurious_token :
    Jack.parse_line false "/**/ ;" = .ok ([.symbol '/', .symbol ';'], false) ∧
    Jack.parse_line false " ;" = .ok ([.symbol ';'], false) ∧
    ([Jack.Token.symbol '/', .symbol ';'] ≠ [Jack.Token.symbol ';']) ∧
    Jack.generate_token_list false ["/* x", "y */"] = .ok [] :=
  ⟨by decide, by decide, by decide, by decide⟩

/-- C7 counterexample: the claim says the tokenizer rejects `32768`, but
`extract_token` parses digit runs as `u16`, so `32768` is accepted as an
`IntegerConstant` even though it exceeds 32767. -/
theorem c7_counterexample_32768_accepted :
    Jack.extract_token "32768".data = .ok (.integerConstant 32768) ∧
    ¬(32768 ≤ 32767) :=
  ⟨by decide, by decide⟩

/-- C7 amended: a token beginning with an ASCII digit yields an
`IntegerConstant` exactly when the whole stash is digits and its value
fits in `u16` (0..65535) — not in the specified 0..32767 range — and the
tokenizer aborts (rather than failing gracefully) otherwise. -/
theorem c7_integer_token_u16_range (c : Char) (cs : List Char)
    (h : c.isDigit = true) :
    (∀ v, Jack.extract_token (c :: cs) = .ok (.integerConstant v) ↔
      ((c :: cs).all Char.isDigit = true ∧ digits_value (c :: cs) ≤ 65535 ∧
        v = digits_value (c :: cs))) ∧
    (¬((c :: cs).all Char.isDigit = true ∧ digits_value (c :: cs) ≤ 65535) →
      Jack.extract_token (c :: cs) =
        .panicked "called Result unwrap on an Err value") := by
  have hsym : ¬((c :: cs).length = 1 ∧ c ∈ Jack.SYMBOL_LIST) := by
    rintro ⟨-, hm⟩
    exact not_symbol_of_digit h hm
  have hred : Jack.extract_token (c :: cs) =
      (match parse_unsigned 65535 ⟨c :: cs⟩ with
       | some v => .ok (.integerConstant v)
       | none => .panicked "called Result unwrap on an Err value") := by
    simp only [Jack.extract_token, if_neg hsym, h, if_pos]
  rw [hred, parse_unsigned_digit_head cs 65535 h]
  constructor
  · intro v
    by_cases hc : (c :: cs).all Char.isDigit = true ∧ digits_value (c :: cs) ≤ 65535
    · simp only [if_pos hc]
      constructor
      · intro hv
        cases hv
        exact ⟨hc.1, hc.2, rfl⟩
      · rintro ⟨-, -, rfl⟩
        rfl
    · simp only [if_neg hc]
      constructor
      · intro hv
        cases hv
      · rintro ⟨h1, h2, rfl⟩
        exact absurd ⟨h1, h2⟩ hc
  · intro hc
    simp only [if_neg hc]

/-- C7 witness: the boundary values 0 and 32767 are accepted, and 65536
aborts the tokenizer. -/
theorem c7_integer_token_u16_range_witness :
    Jack.extract_token "0".data = .ok (.integerConstant 0) ∧
    Jack.extract_token "32767".data = .ok (.integerConstant 32767) ∧
    Jack.extract_token "65536".data =
      .panicked "called Result unwrap on an Err value" :=
  ⟨((c7_integer_token_u16_range '0' [] (by decide)).1 0).mpr (by decide),
   ((c7_integer_token_u16_range '3' "2767".data (by decide)).1 32767).mpr (by decide),
   (c7_integer_token_u16_range '6' "5536".data (by decide)).2 (by decide)⟩

/-- C4 counterexample: for an unqualified `do g();` the emitted VM code
is just the call line — no `pop temp 0` is appended, contradicting the
claim that every `do` ends with `pop temp 0`. -/
theorem c4_counterexample_unqualified_do_no_pop :
    Jack.do_statement_compile 2 ⟨fun _ => none, Jack.os_return_type⟩
      ⟨"Main", "main"⟩ (.functionCall "g" []) = .ok ["call g 0"] ∧
    (["call g 0"] : List String).getLast? ≠ some "pop temp 0" :=
  ⟨rfl, by decide⟩

/-- C4 amended: the code generator emits `pop temp 0` after a `do`
statement only for a dotted call `X.f(args)` whose registered return
type is void; an unqualified `do f(args);` never receives `pop temp 0`,
and a dotted call with a non-void return type does not either. -/
theorem c4_pop_temp0_only_void_method :
    ∀ (fuel : Nat) (info : Jack.ParseInfo) (state : Jack.CompileState),
    (∀ (name : String) (ps : List Jack.JExpr) (out : List String),
      Jack.expression_list_compile fuel info state ps = .ok out →
      Jack.do_statement_compile (fuel + 1) info state (.functionCall name ps) =
        .ok (out ++ ["call " ++ name ++ " " ++ Nat.repr ps.length]) ∧
      (out ++ ["call " ++ name ++ " " ++ Nat.repr ps.length]).getLast? ≠
        some "pop temp 0") ∧
    (∀ (src m : String) (ps : List Jack.JExpr) (out : List String)
        (rt : Jack.ReturnType),
      Jack.expression_list_compile fuel info state ps = .ok out →
      info.return_type (src ++ "." ++ m) = some rt →
      Jack.do_statement_compile (fuel + 1) info state (.methodCall src m ps) =
        .ok (out ++ ["call " ++ src ++ "." ++ m ++ " " ++ Nat.repr ps.length] ++
          (if rt = .Void then ["pop temp 0"] else [])) ∧
      ((out ++ ["call " ++ src ++ "." ++ m ++ " " ++ Nat.repr ps.length] ++
          (if rt = .Void then ["pop temp 0"] else [])).getLast? =
        some "pop temp 0" ↔ rt = .Void)) := by
  intro fuel info state
  refine ⟨?_, ?_⟩
  · intro name ps out hps
    refine ⟨?_, ?_⟩
    · simp only [Jack.do_statement_compile, Jack.call_compile, hps,
        CResult.bind_ok]
    · rw [List.getLast?_concat]
      intro hcon
      have h2 := Option.some.inj hcon
      rw [String.append_assoc, String.append_assoc] at h2
      exact call_line_ne_pop _ h2
  · intro src m ps out rt hps hrt
    have hq : Jack.do_statement_compile (fuel + 1) info state
        (.methodCall src m ps) =
        .ok (out ++ ["call " ++ src ++ "." ++ m ++ " " ++ Nat.repr ps.length] ++
          (if rt = .Void then ["pop temp 0"] else [])) := by
      have hrt2 := hrt
      rw [String.append_assoc] at hrt2
      simp only [Jack.do_statement_compile, Jack.call_compile, hps,
        CResult.bind_ok, String.append_assoc, hrt2]
    refine ⟨hq, ?_⟩
    by_cases hv : rt = Jack.ReturnType.Void
    · subst hv
      simp only [if_pos rfl, List.getLast?_concat]
      simp
    · simp only [if_neg hv, List.append_nil, List.getLast?_concat]
      constructor
      · intro hcon
        have h2 := Option.some.inj hcon
        rw [String.append_assoc, String.append_assoc] at h2
        exact absurd h2 (call_line_ne_pop _)
      · intro h2
        exact absurd h2 hv

/-- C4 witness: instances at a void OS call (`do Output.println();`), a
non-void dotted call (`do Math.sqrt();`) and an unqualified call
(`do g();`), with the pre-seeded OS registry. -/
theorem c4_pop_temp0_only_void_method_witness :
    Jack.do_statement_compile 2 ⟨fun _ => none, Jack.os_return_type⟩
      ⟨"Main", "main"⟩ (.methodCall "Output" "println" []) =
      .ok (([] : List String) ++ ["call " ++ "Output" ++ "." ++ "println" ++ " " ++ Nat.repr (List.length ([] : List Jack.JExpr))] ++
        (if Jack.ReturnType.Void = .Void then ["pop temp 0"] else [])) ∧
    Jack.do_statement_compile 2 ⟨fun _ => none, Jack.os_return_type⟩
      ⟨"Main", "main"⟩ (.methodCall "Math" "sqrt" []) =
      .ok (([] : List String) ++ ["call " ++ "Math" ++ "." ++ "sqrt" ++ " " ++ Nat.repr (List.length ([] : List Jack.JExpr))] ++
        (if Jack.ReturnType.Int = .Void then ["pop temp 0"] else [])) ∧
    Jack.do_statement_compile 2 ⟨fun _ => none, Jack.os_return_type⟩
      ⟨"Main", "main"⟩ (.functionCall "g" []) =
      .ok (([] : List String) ++ ["call " ++ "g" ++ " " ++ Nat.repr (List.length ([] : List Jack.JExpr))]) :=
  ⟨(((c4_pop_temp0_only_void_method 1 ⟨fun _ => none, Jack.os_return_type⟩
      ⟨"Main", "main"⟩).2 "Output" "println" [] [] .Void rfl (by decide)).1),
   (((c4_pop_temp0_only_void_method 1 ⟨fun _ => none, Jack.os_return_type⟩
      ⟨"Main", "main"⟩).2 "Math" "sqrt" [] [] .Int rfl (by decide)).1),
   (((c4_pop_temp0_only_void_method 1 ⟨fun _ => none, Jack.os_return_type⟩
      ⟨"Main", "main"⟩).1 "g" [] [] rfl).1)⟩

/-- C10: a dotted call `X.f(args)` is compiled by looking the return
type up under the literal key `X.f` (the identifier `X` exactly as
written); a missing key makes compilation abort through `unwrap` (a
panic, not an `err` return), and on success the output is exactly the
compiled arguments, then `call X.f n` with `n` the number of argument
expressions — no receiver push — then `pop temp 0` only for void. -/
theorem c10_method_call_literal_key_unwrap :
    ∀ (fuel : Nat) (info : Jack.ParseInfo) (state : Jack.CompileState)
      (src m : String) (ps : List Jack.JExpr) (out : List String),
    Jack.expression_list_compile fuel info state ps = .ok out →
    (info.return_type (src ++ "." ++ m) = none →
      Jack.call_compile (fuel + 1) info state (.methodCall src m ps) =
        .panicked "called Option unwrap on a None value") ∧
    (∀ rt, info.return_type (src ++ "." ++ m) = some rt →
      Jack.call_compile (fuel + 1) info state (.methodCall src m ps) =
        .ok (out ++ ["call " ++ src ++ "." ++ m ++ " " ++ Nat.repr ps.length] ++
          (if rt = .Void then ["pop temp 0"] else []))) := by
  intro fuel info state src m ps out hps
  refine ⟨?_, ?_⟩
  · intro hnone
    have hnone2 := hnone
    rw [String.append_assoc] at hnone2
    simp only [Jack.call_compile, hps, CResult.bind_ok, String.append_assoc,
      hnone2]
  · intro rt hrt
    have hrt2 := hrt
    rw [String.append_assoc] at hrt2
    simp only [Jack.call_compile, hps, CResult.bind_ok, String.append_assoc,
      hrt2]

/-- C10 witness: with the OS registry, `Foo.bar` is absent and aborts,
while `Output.printInt` is found and compiled with `pop temp 0`. -/
theorem c10_method_call_literal_key_unwrap_witness :
    Jack.call_compile 2 ⟨fun _ => none, Jack.os_return_type⟩ ⟨"Main", "main"⟩
      (.methodCall "Foo" "bar" []) =
      .panicked "called Option unwrap on a None value" ∧
    Jack.call_compile 2 ⟨fun _ => none, Jack.os_return_type⟩ ⟨"Main", "main"⟩
      (.methodCall "Output" "printInt" []) =
      .ok (([] : List String) ++ ["call " ++ "Output" ++ "." ++ "printInt" ++ " " ++ Nat.repr (List.length ([] : List Jack.JExpr))] ++
        (if Jack.ReturnType.Void = .Void then ["pop temp 0"] else [])) :=
  ⟨(c10_method_call_literal_key_unwrap 1 ⟨fun _ => none, Jack.os_return_type⟩
      ⟨"Main", "main"⟩ "Foo" "bar" [] [] rfl).1 (by decide),
   (c10_method_call_literal_key_unwrap 1 ⟨fun _ => none, Jack.os_return_type⟩
      ⟨"Main", "main"⟩ "Output" "printInt" [] [] rfl).2 .Void (by decide)⟩

/-- C6 counterexample: the token sequence `a ~ b ;` is accepted by the
expression parser with two terms and zero ops, so the claimed invariant
`ops = terms - 1` fails on an accepted sequence: `~` after an
accumulated term is still parsed as a unary operator. -/
theorem c6_counterexample_tilde_after_term :
    Jack.parse_expression 10 (.mk [] [])
      [.identifier "a", .symbol '~', .identifier "b", .symbol ';'] 0 =
      .ok (.mk [.varName "a", .unaryOp '~' (.varName "b")] [], 3) ∧
    ¬(([] : List Char).length =
      [Jack.JTerm.varName "a", .unaryOp '~' (.varName "b")].length - 1) :=
  ⟨rfl, by decide⟩

/-- C6 amended: during expression parsing a `-` begins a unary term
exactly when no term has been accumulated yet and is pushed as a binary
operator otherwise, but `~` always begins a unary term regardless of the
accumulated terms; consequently the parser itself does not guarantee
`ops = terms - 1` (that relation is only asserted downstream, by
`Expression::serialize` and `Expression::compile`). -/
theorem c6_minus_unary_only_when_no_term :
    ∀ (fuel : Nat) (target : Jack.JExpr) (tokens : List Jack.Token) (i : Nat),
    (tokens.get? i = some (.symbol '-') → target.terms ≠ [] →
      Jack.parse_expression (fuel + 1) target tokens i =
        Jack.parse_expression fuel (.mk target.terms (target.ops ++ ['-']))
          tokens (i + 1)) ∧
    (tokens.get? i = some (.symbol '-') → target.terms = [] →
      Jack.parse_expression (fuel + 1) target tokens i =
        (match Jack.parse_term fuel tokens (i + 1) with
         | .ok (t, i2) =>
           Jack.parse_expression fuel
             (.mk (target.terms ++ [.unaryOp '-' t]) target.ops) tokens i2
         | .err e => .err e
         | .panicked m => .panicked m)) ∧
    (tokens.get? i = some (.symbol '~') →
      Jack.parse_expression (fuel + 1) target tokens i =
        (match Jack.parse_term fuel tokens (i + 1) with
         | .ok (t, i2) =>
           Jack.parse_expression fuel
             (.mk (target.terms ++ [.unaryOp '~' t]) target.ops) tokens i2
         | .err e => .err e
         | .panicked m => .panicked m)) := by
  intro fuel target tokens i
  obtain ⟨terms, ops⟩ := target
  refine ⟨?_, ?_, ?_⟩
  · intro h hne
    cases terms with
    | nil => exact absurd rfl hne
    | cons t ts =>
      simp only [Jack.parse_expression, h]
      rfl
  · intro h hnil
    simp only [Jack.JExpr.terms_mk] at hnil
    subst hnil
    simp only [Jack.parse_expression, h]
    rfl
  · intro h
    simp only [Jack.parse_expression, h]
    rfl

/-- C6 witness: instances of the three lookahead behaviors on concrete
token lists: binary `-` after a term, unary `-` with no term yet, and
unary `~` after a term. -/
theorem c6_minus_unary_only_when_no_term_witness :
    Jack.parse_expression 3 (.mk [.varName "a"] []) [.symbol '-', .identifier "b", .symbol ';'] 0 =
      Jack.parse_expression 2 (.mk [.varName "a"] ([] ++ ['-'])) [.symbol '-', .identifier "b", .symbol ';'] 1 ∧
    Jack.parse_expression 3 (.mk [] []) [.symbol '-', .identifier "b", .symbol ';'] 0 =
      (match Jack.parse_term 2 [Jack.Token.symbol '-', .identifier "b", .symbol ';'] 1 with
       | .ok (t, i2) =>
         Jack.parse_expression 2 (.mk ([] ++ [.unaryOp '-' t]) []) [.symbol '-', .identifier "b", .symbol ';'] i2
       | .err e => .err e
       | .panicked m => .panicked m) ∧
    Jack.parse_expression 3 (.mk [.varName "a"] []) [.symbol '~', .identifier "b", .symbol ';'] 0 =
      (match Jack.parse_term 2 [Jack.Token.symbol '~', .identifier "b", .symbol ';'] 1 with
       | .ok (t, i2) =>
         Jack.parse_expression 2 (.mk ([.varName "a"] ++ [.unaryOp '~' t]) []) [.symbol '~', .identifier "b", .symbol ';'] i2
       | .err e => .err e
       | .panicked m => .panicked m) :=
  ⟨(c6_minus_unary_only_when_no_term 2 (.mk [.varName "a"] [])
      [.symbol '-', .identifier "b", .symbol ';'] 0).1 rfl (by simp),
   (c6_minus_unary_only_when_no_term 2 (.mk [] [])
      [.symbol '-', .identifier "b", .symbol ';'] 0).2.1 rfl rfl,
   (c6_minus_unary_only_when_no_term 2 (.mk [.varName "a"] [])
      [.symbol '~', .identifier "b", .symbol ';'] 0).2.2 rfl⟩

/-- Source comp table agrees with the specification table on every
specified mnemonic. -/
theorem comp_bits_of_mem :
    ∀ p ∈ HackSpec.spec_comp_table, Hackasm.comp_bits p.1 = some p.2 := by
  decide

/-- Every comp mnemonic the source accepts is in the specification
table, with the same bits. -/
theorem mem_of_comp_bits (c cb : String) (h : Hackasm.comp_bits c = some cb) :
    (c, cb) ∈ HackSpec.spec_comp_table := by
  unfold Hackasm.comp_bits at h
  split at h <;> cases h <;> decide

/-- Source dest table agrees with the specification table. -/
theorem dest_bits_of_mem :
    ∀ p ∈ HackSpec.spec_dest_table, Hackasm.dest_bits p.1 = some p.2 := by
  decide

/-- Every dest mnemonic the source accepts is specified. -/
theorem mem_of_dest_bits (d : Option String) (db : String)
    (h : Hackasm.dest_bits d = some db) : (d, db) ∈ HackSpec.spec_dest_table := by
  unfold Hackasm.dest_bits at h
  split at h <;> cases h <;> decide

/-- Source jump table agrees with the specification table. -/
theorem jump_bits_of_mem :
    ∀ p ∈ HackSpec.spec_jump_table, Hackasm.jump_bits p.1 = some p.2 := by
  decide

/-- Every jump mnemonic the source accepts is specified. -/
theorem mem_of_jump_bits (j : Option String) (jb : String)
    (h : Hackasm.jump_bits j = some jb) : (j, jb) ∈ HackSpec.spec_jump_table := by
  unfold Hackasm.jump_bits at h
  split at h <;> cases h <;> decide

/-- C3: for every comp mnemonic of the standard table (with dest and
jump possibly absent) the emitted word is `111`, the 7 comp bits, 3 dest
bits and 3 jump bits of the standard tables, followed by the newline the
source appends; `D+M` in particular encodes as `1000010`; and encoding
returns an error on any comp, dest or jump mnemonic outside the
tables. -/
theorem c3_cinstruction_encoding :
    (∀ (c cb : String) (d j : Option String) (db jb : String),
      (c, cb) ∈ HackSpec.spec_comp_table →
      (d, db) ∈ HackSpec.spec_dest_table →
      (j, jb) ∈ HackSpec.spec_jump_table →
      Hackasm.CInstruction.to_binary_text ⟨c, d, j⟩ =
        .ok ("111" ++ cb ++ db ++ jb ++ "\n")) ∧
    (∀ (c : String) (d j : Option String),
      (∀ cb, (c, cb) ∉ HackSpec.spec_comp_table) →
      Hackasm.CInstruction.to_binary_text ⟨c, d, j⟩ = .err "Unknown comp") ∧
    (∀ (c cb : String) (d j : Option String),
      (c, cb) ∈ HackSpec.spec_comp_table →
      (∀ db, (d, db) ∉ HackSpec.spec_dest_table) →
      Hackasm.CInstruction.to_binary_text ⟨c, d, j⟩ = .err "Unknown dest") ∧
    (∀ (c cb : String) (d : Option String) (db : String) (j : Option String),
      (c, cb) ∈ HackSpec.spec_comp_table →
      (d, db) ∈ HackSpec.spec_dest_table →
      (∀ jb, (j, jb) ∉ HackSpec.spec_jump_table) →
      Hackasm.CInstruction.to_binary_text ⟨c, d, j⟩ = .err "Unknown jump") ∧
    ("D+M", "1000010") ∈ HackSpec.spec_comp_table := by
  refine ⟨?_, ?_, ?_, ?_, by decide⟩
  · intro c cb d j db jb hc hd hj
    have h1 := comp_bits_of_mem (c, cb) hc
    have h2 := dest_bits_of_mem (d, db) hd
    have h3 := jump_bits_of_mem (j, jb) hj
    simp only [Hackasm.CInstruction.to_binary_text, h1, h2, h3]
  · intro c d j hc
    have h1 : Hackasm.comp_bits c = none := by
      cases hcb : Hackasm.comp_bits c with
      | none => rfl
      | some cb => exact absurd (mem_of_comp_bits c cb hcb) (hc cb)
    simp only [Hackasm.CInstruction.to_binary_text, h1]
  · intro c cb d j hc hd
    have h1 := comp_bits_of_mem (c, cb) hc
    have h2 : Hackasm.dest_bits d = none := by
      cases hdb : Hackasm.dest_bits d with
      | none => rfl
      | some db => exact absurd (mem_of_dest_bits d db hdb) (hd db)
    simp only [Hackasm.CInstruction.to_binary_text, h1, h2]
  · intro c cb d db j hc hd hj
    have h1 := comp_bits_of_mem (c, cb) hc
    have h2 := dest_bits_of_mem (d, db) hd
    have h3 : Hackasm.jump_bits j = none := by
      cases hjb : Hackasm.jump_bits j with
      | none => rfl
      | some jb => exact absurd (mem_of_jump_bits j jb hjb) (hj jb)
    simp only [Hackasm.CInstruction.to_binary_text, h1, h2, h3]

/-- C3 witness: the encodings of `D=D+M`, of bare `0;JMP`, and the three
failure modes at unknown mnemonics. -/
theorem c3_cinstruction_encoding_witness :
    Hackasm.CInstruction.to_binary_text ⟨"D+M", some "D", none⟩ =
      .ok ("111" ++ "1000010" ++ "010" ++ "000" ++ "\n") ∧
    Hackasm.CInstruction.to_binary_text ⟨"0", none, some "JMP"⟩ =
      .ok ("111" ++ "0101010" ++ "000" ++ "111" ++ "\n") ∧
    Hackasm.CInstruction.to_binary_text ⟨"D+D", none, none⟩ = .err "Unknown comp" ∧
    Hackasm.CInstruction.to_binary_text ⟨"D", some "X", none⟩ = .err "Unknown dest" ∧
    Hackasm.CInstruction.to_binary_text ⟨"D", some "D", some "JXX"⟩ = .err "Unknown jump" :=
  ⟨c3_cinstruction_encoding.1 "D+M" "1000010" (some "D") none "010" "000"
      (by decide) (by decide) (by decide),
   c3_cinstruction_encoding.1 "0" "0101010" none (some "JMP") "000" "111"
      (by decide) (by decide) (by decide),
   c3_cinstruction_encoding.2.1 "D+D" none none
      (by intro cb hm; simp [HackSpec.spec_comp_table] at hm),
   c3_cinstruction_encoding.2.2.1 "D" "0001100" (some "X") none
      (by decide) (by intro db hm; simp [HackSpec.spec_dest_table] at hm),
   c3_cinstruction_encoding.2.2.2.1 "D" "0001100" (some "D") "010" (some "JXX")
      (by decide) (by decide)
      (by intro jb hm; simp [HackSpec.spec_jump_table] at hm)⟩

/-- Inversion for a successful `CResult.bind`. -/
theorem bind_ok_inv {α β : Type} (x : CResult α) (f : α → CResult β) (b : β)
    (h : CResult.bind x f = .ok b) : ∃ a, x = .ok a ∧ f a = .ok b := by
  cases x <;> simp_all [CResult.bind]

/-- A successfully constructed memory access command is never a
comparison command. -/
theorem memory_access_new_shape (ct : Hacktrans.CommandType) (seg idx : String)
    (cmd : Hacktrans.Command) (h : Hacktrans.MemoryAccess.new ct seg idx = .ok cmd) :
    Hacktrans.eq_id? cmd = none ∧ Hacktrans.gt_id? cmd = none ∧
    Hacktrans.lt_id? cmd = none := by
  unfold Hacktrans.MemoryAccess.new at h
  split at h <;>
    (first
      | rw [CResult.bind_ok] at h
      | rw [CResult.bind_panicked] at h) <;>
    (first
      | exact CResult.noConfusion h
      | (split at h <;>
          first
          | (cases h; exact ⟨rfl, rfl, rfl⟩)
          | exact CResult.noConfusion h))

/-- Per-line counter behavior of the VM translator: an `eq`, `gt` or
`lt` line bumps its own counter and stamps the bumped value as the
command id; every other line leaves that counter unchanged. -/
theorem parse_line_counts (l : String) (c : Hacktrans.Counter)
    (res : Option Hacktrans.Command × Hacktrans.Counter)
    (h : Hacktrans.parse_line l c = .ok res) :
    ((∀ id, res.1.bind Hacktrans.eq_id? = some id → id = c.eq + 1 ∧ res.2.eq = c.eq + 1) ∧
     (res.1.bind Hacktrans.eq_id? = none → res.2.eq = c.eq)) ∧
    ((∀ id, res.1.bind Hacktrans.gt_id? = some id → id = c.gt + 1 ∧ res.2.gt = c.gt + 1) ∧
     (res.1.bind Hacktrans.gt_id? = none → res.2.gt = c.gt)) ∧
    ((∀ id, res.1.bind Hacktrans.lt_id? = some id → id = c.lt + 1 ∧ res.2.lt = c.lt + 1) ∧
     (res.1.bind Hacktrans.lt_id? = none → res.2.lt = c.lt)) := by
  simp only [Hacktrans.parse_line] at h
  split at h
  · cases h
    simp [Hacktrans.eq_id?, Hacktrans.gt_id?, Hacktrans.lt_id?]
  · split at h
    · exact CResult.noConfusion h
    · split at h <;>
        first
        | exact CResult.noConfusion h
        | (cases h; simp [Hacktrans.eq_id?, Hacktrans.gt_id?, Hacktrans.lt_id?])
        | (split at h <;>
            first
            | exact CResult.noConfusion h
            | (cases h; simp [Hacktrans.eq_id?, Hacktrans.gt_id?, Hacktrans.lt_id?])
            | (obtain ⟨cm, hma, hf⟩ := bind_ok_inv _ _ _ h
               cases hf
               have hs := memory_access_new_shape _ _ _ _ hma
               simp [hs.1, hs.2.1, hs.2.2])
            | (split at h <;>
                first
                | exact CResult.noConfusion h
                | (cases h; simp [Hacktrans.eq_id?, Hacktrans.gt_id?, Hacktrans.lt_id?])))

/-- Counter invariant of a whole translation run, generic in the
comparison kind: the ids stamped on the commands of that kind form the
consecutive range starting one above the initial counter, and the final
counter advanced by their number. -/
theorem run_parse_ids_generic
    (pid : Hacktrans.Command → Option Nat) (pc : Hacktrans.Counter → Nat)
    (hstep : ∀ l c res, Hacktrans.parse_line l c = .ok res →
      (∀ id, res.1.bind pid = some id → id = pc c + 1 ∧ pc res.2 = pc c + 1) ∧
      (res.1.bind pid = none → pc res.2 = pc c)) :
    ∀ (lines : List String) (c : Hacktrans.Counter)
      (cmds : List Hacktrans.Command) (c' : Hacktrans.Counter),
      Hacktrans.run_parse lines c = .ok (cmds, c') →
      cmds.filterMap pid = List.range' (pc c + 1) (cmds.filterMap pid).length ∧
      pc c' = pc c + (cmds.filterMap pid).length := by
  intro lines
  induction lines with
  | nil =>
    intro c cmds c' h
    simp only [Hacktrans.run_parse] at h
    cases h
    simp
  | cons l ls ih =>
    intro c cmds c' h
    simp only [Hacktrans.run_parse] at h
    split at h
    · rename_i c1 heq
      have h1 := (hstep l c _ heq).2 (by simp)
      have h2 := ih c1 cmds c' h
      rw [h1] at h2
      exact h2
    · rename_i cmd c1 heq
      split at h
      · rename_i cmds2 cf heq2
        cases h
        have hrec := ih c1 _ _ heq2
        cases hp : pid cmd with
        | none =>
          have h1 := (hstep l c _ heq).2 (by simp [hp])
          rw [h1] at hrec
          simpa [List.filterMap_cons, hp] using hrec
        | some id =>
          obtain ⟨hid, hc1⟩ := (hstep l c _ heq).1 id (by simp [hp])
          subst hid
          rw [hc1] at hrec
          obtain ⟨hr1, hr2⟩ := hrec
          constructor
          · simp only [List.filterMap_cons, hp, List.length_cons]
            rw [List.range'_succ]
            exact congrArg _ hr1
          · simp only [List.filterMap_cons, hp, List.length_cons]
            omega
      · exact CResult.noConfusion h
      · exact CResult.noConfusion h
    · exact CResult.noConfusion h
    · exact CResult.noConfusion h

/-- C5: starting from a fresh counter, the ids stamped on the `eq`
(resp. `gt`, `lt`) commands of one translation run are exactly
`1, 2, ...` in order — so the jump labels `IsEq.k`
(`IsGt.k`/`WriteGtOutput.k`, `IsGe.k`/`WriteLtOutput.k`), which splice
the id, are pairwise distinct within each kind — the counter ends at the
number of commands of its kind, the comparison templates emit exactly
those labels, and two consecutive `eq` commands get `IsEq.1` and
`IsEq.2`. -/
theorem c5_comparison_counter_labels :
    (∀ (lines : List String) (cmds : List Hacktrans.Command)
       (c' : Hacktrans.Counter),
      Hacktrans.run_parse lines ⟨0, 0, 0⟩ = .ok (cmds, c') →
      Hacktrans.eq_ids cmds = List.range' 1 (Hacktrans.eq_ids cmds).length ∧
      Hacktrans.gt_ids cmds = List.range' 1 (Hacktrans.gt_ids cmds).length ∧
      Hacktrans.lt_ids cmds = List.range' 1 (Hacktrans.lt_ids cmds).length ∧
      c'.eq = (Hacktrans.eq_ids cmds).length ∧
      c'.gt = (Hacktrans.gt_ids cmds).length ∧
      c'.lt = (Hacktrans.lt_ids cmds).length ∧
      (Hacktrans.eq_ids cmds).Nodup ∧ (Hacktrans.gt_ids cmds).Nodup ∧
      (Hacktrans.lt_ids cmds).Nodup) ∧
    Hacktrans.run_parse ["eq", "eq"] ⟨0, 0, 0⟩ =
      .ok ([.arithmetic .Arithmetic .Eq 1, .arithmetic .Arithmetic .Eq 2],
        ⟨2, 0, 0⟩) ∧
    (∀ id, Hacktrans.arithmetic_to_asm_text .Eq id = .ok (Hacktrans.eq_asm id)) ∧
    (∀ id, Hacktrans.arithmetic_to_asm_text .Gt id = .ok (Hacktrans.gt_asm id)) ∧
    (∀ id, Hacktrans.arithmetic_to_asm_text .Lt id = .ok (Hacktrans.lt_asm id)) ∧
    Hacktrans.eq_label 1 = "IsEq.1" ∧ Hacktrans.eq_label 2 = "IsEq.2" ∧
    Hacktrans.eq_label 1 ≠ Hacktrans.eq_label 2 ∧
    Hacktrans.eq_asm 1 ≠ Hacktrans.eq_asm 2 := by
  refine ⟨?_, by decide, fun id => rfl, fun id => rfl, fun id => rfl,
    by decide, by decide, by decide, by decide⟩
  intro lines cmds c' h
  have he := run_parse_ids_generic Hacktrans.eq_id? (fun c => c.eq)
    (fun l c res hh => (parse_line_counts l c res hh).1) lines ⟨0, 0, 0⟩ cmds c' h
  have hg := run_parse_ids_generic Hacktrans.gt_id? (fun c => c.gt)
    (fun l c res hh => (parse_line_counts l c res hh).2.1) lines ⟨0, 0, 0⟩ cmds c' h
  have hl := run_parse_ids_generic Hacktrans.lt_id? (fun c => c.lt)
    (fun l c res hh => (parse_line_counts l c res hh).2.2) lines ⟨0, 0, 0⟩ cmds c' h
  simp only [Hacktrans.eq_ids, Hacktrans.gt_ids, Hacktrans.lt_ids]
  refine ⟨?_, ?_, ?_, ?_, ?_, ?_, ?_, ?_, ?_⟩
  · simpa using he.1
  · simpa using hg.1
  · simpa using hl.1
  · simpa using he.2
  · simpa using hg.2
  · simpa using hl.2
  · have h2 := he.1
    rw [h2]
    exact List.nodup_range' _ _ 1 Nat.one_pos
  · have h2 := hg.1
    rw [h2]
    exact List.nodup_range' _ _ 1 Nat.one_pos
  · have h2 := hl.1
    rw [h2]
    exact List.nodup_range' _ _ 1 Nat.one_pos

/-- C5 witness: the invariant instantiated on the two-line input
`eq eq`, whose parsed commands carry the distinct ids 1 and 2. -/
theorem c5_comparison_counter_labels_witness :
    Hacktrans.eq_ids [.arithmetic .Arithmetic .Eq 1, .arithmetic .Arithmetic .Eq 2] =
      List.range' 1 (Hacktrans.eq_ids
        [.arithmetic .Arithmetic .Eq 1, .arithmetic .Arithmetic .Eq 2]).length ∧
    (Hacktrans.eq_ids
      [.arithmetic .Arithmetic .Eq 1, .arithmetic .Arithmetic .Eq 2]).Nodup :=
  ⟨(c5_comparison_counter_labels.1 ["eq", "eq"]
      [.arithmetic .Arithmetic .Eq 1, .arithmetic .Arithmetic .Eq 2] ⟨2, 0, 0⟩
      (by decide)).1,
   (c5_comparison_counter_labels.1 ["eq", "eq"]
      [.arithmetic .Arithmetic .Eq 1, .arithmetic .Arithmetic .Eq 2] ⟨2, 0, 0⟩
      (by decide)).2.2.2.2.2.2.1⟩
